import Mathlib

/-!
Verification of the Intcode virtual machine in `day17/intcode.py`
(class `IntcodeComputer`).

The machine state is embedded as a structure mirroring the instance
attributes of `IntcodeComputer`; the numpy `int64` memory array becomes a
`List Int` whose cells are kept in 64-bit range by wrapping stored values
with `wrap64` (numpy int64 arithmetic wraps).  numpy's integer indexing
(negative indices address from the end, out-of-range indices raise
`IndexError`) is modelled by `npGet` / `npSet`, numpy basic slicing by
`npSlice`.  Python exceptions are modelled by the inductive `Err`; an
operation that raises leaves the object in its state at raise time, so
fallible operations return the machine together with the error.
-/

namespace Intcode

/-- Python exceptions that the interpreter can raise, identified by their
operational cause in the source:
`indexOutOfRange` — numpy `IndexError` from an out-of-bounds index;
`popFromEmptyList` — `IndexError` from `list.pop(0)` on an empty list
(`self.input.pop(0)` in opcode 3);
`keyError` — `KeyError` from `self.opcode_dict[opcode]` on an unknown opcode;
`valueError` — `ValueError` from tuple unpacking of a short argument list,
from `int` applied to a non-digit string in `parse_full_opcode`, or from the
broadcast in `initialize_code` when the program is longer than the array;
`typeError` — `TypeError` from storing `None` into the int64 array;
`overflowError` — `OverflowError` from converting a Python int outside
int64 range into the array. -/
inductive Err where
  | indexOutOfRange
  | popFromEmptyList
  | keyError
  | valueError
  | typeError
  | overflowError
deriving DecidableEq, Repr

instance {ε α : Type} [DecidableEq ε] [DecidableEq α] : DecidableEq (Except ε α) := fun a b =>
  match a, b with
  | .error e1, .error e2 => decidable_of_iff (e1 = e2) (by simp)
  | .ok v1, .ok v2 => decidable_of_iff (v1 = v2) (by simp)
  | .error _, .ok _ => isFalse (by simp)
  | .ok _, .error _ => isFalse (by simp)

/-- `2 ^ 63`, written as a numeral so the kernel can evaluate it. -/
def two63 : Int := 9223372036854775808

/-- `2 ^ 64`, written as a numeral so the kernel can evaluate it. -/
def two64 : Int := 18446744073709551616

/-- Wrap an integer into signed 64-bit range, as numpy int64 arithmetic does. -/
def wrap64 (x : Int) : Int := (x + two63) % two64 - two63

/-- The interpreter state: the instance attributes of `IntcodeComputer`.
`code` is the numpy array `self.code` (fixed length = capacity);
`input` is the pending-input list set by `run` (elements are `Option Int`
because `run()` with no argument enqueues Python `None`). -/
structure Machine where
  code : List Int
  pointer : Int
  relative_base : Int
  input : List (Option Int)
  output : List Int
  continue_flag : Bool
  unpaused_flag : Bool
  allow_pausing : Bool
deriving DecidableEq, Repr

/-- The spec's derived run status: Halted when `continue_flag` is cleared by
opcode 99, Paused when `unpaused_flag` is cleared by an output under
`allow_pausing`, Running otherwise. -/
inductive Status where
  | Running
  | Paused
  | Halted
deriving DecidableEq, Repr

def status (m : Machine) : Status :=
  if m.continue_flag = false then .Halted
  else if m.unpaused_flag = false then .Paused
  else .Running

/-- numpy integer indexing on a 1-D array: negative indices count from the
end; indices outside `[-n, n)` raise `IndexError`. -/
def npGet (code : List Int) (i : Int) : Except Err Int :=
  if 0 ≤ i then
    if i < (code.length : Int) then .ok (code.getD i.toNat 0)
    else .error .indexOutOfRange
  else
    if -(code.length : Int) ≤ i then .ok (code.getD ((code.length : Int) + i).toNat 0)
    else .error .indexOutOfRange

/-- numpy integer-indexed assignment on a 1-D array, same index rules. -/
def npSet (code : List Int) (i v : Int) : Except Err (List Int) :=
  if 0 ≤ i then
    if i < (code.length : Int) then .ok (code.set i.toNat v)
    else .error .indexOutOfRange
  else
    if -(code.length : Int) ≤ i then .ok (code.set ((code.length : Int) + i).toNat v)
    else .error .indexOutOfRange

/-- Normalise one bound of a numpy basic slice `[a:b]` on an array of
length `n`: negative bounds count from the end, and bounds are clipped to
`[0, n]` (slicing never raises). -/
def npSliceBound (n : Nat) (i : Int) : Nat :=
  if i < 0 then (max ((n : Int) + i) 0).toNat else (min i (n : Int)).toNat

/-- numpy basic slice `code[a:b]`. -/
def npSlice (code : List Int) (a b : Int) : List Int :=
  (code.take (npSliceBound code.length b)).drop (npSliceBound code.length a)

/-- Structural worker for `revDigits`: the first argument is fuel, always
at least the number being decomposed, so the `0` fuel case with a positive
number is never reached (`(n + 1) / 10 ≤ n`, so fuel `n` suffices for
`n`). -/
def revDigitsFuel : Nat → Nat → List Nat
  | _, 0 => []
  | 0, _ + 1 => []
  | fuel + 1, n + 1 => ((n + 1) % 10) :: revDigitsFuel fuel ((n + 1) / 10)

/-- The digits of `n`, least significant first; matches
`[int(x) for x in str(n)[::-1]]` for `n > 0`, and `[]` for `n = 0`
(because `str(full_opcode)[:-2]` is empty when there are no mode digits). -/
def revDigits (n : Nat) : List Nat := revDigitsFuel n n

/-- `IntcodeComputer.parse_full_opcode`: string-slicing decode of a full
opcode.  For `f ≥ 0`, `int(str(f)[-2:]) = f % 100` and the reversed leading
digits are `revDigits (f / 100)`.  For `-9 ≤ f ≤ -1` the string is two
characters, so the mode list is empty and the "opcode" is `f` itself
(later a `KeyError`); for `f ≤ -10` the reversed prefix contains the minus
sign and `int` raises `ValueError`. -/
def parse_full_opcode (f : Int) : Except Err (List Nat × Int) :=
  if 0 ≤ f then .ok (revDigits (f.toNat / 100), f % 100)
  else if -9 ≤ f then .ok ([], f)
  else .error .valueError

/-- `IntcodeComputer.check_modes_length`: pad the mode list with zeros up to
`num_args` (a longer list is kept as is). -/
def check_modes_length (modes : List Nat) (num_args : Nat) : List Nat :=
  if modes.length < num_args then modes ++ List.replicate (num_args - modes.length) 0
  else modes

/-- The body of the loop in `follow_pointers` that resolves one read
operand: mode 0 dereferences the literal, mode 2 dereferences
`relative_base + literal` (int64 sum), any other mode leaves the literal
unchanged (the `if/elif` has no else branch). -/
def resolve_one (m : Machine) (mode : Nat) (lit : Int) : Except Err Int :=
  if mode = 0 then npGet m.code lit
  else if mode = 2 then npGet m.code (wrap64 (m.relative_base + lit))
  else .ok lit

/-- The `for i in range(len(args) - 1)` loop of `follow_pointers`, applied
to the (literal, mode) pairs of all arguments but the last, in order. -/
def resolve_front (m : Machine) : List (Int × Nat) → Except Err (List Int)
  | [] => .ok []
  | (lit, mode) :: rest =>
    match resolve_one m mode lit with
    | .error e => .error e
    | .ok v =>
      match resolve_front m rest with
      | .error e => .error e
      | .ok vs => .ok (v :: vs)

/-- `IntcodeComputer.follow_pointers`.  Slices the `num_args` raw operands
after the pointer, resolves all but the last with `resolve_one`, then the
last: when `has_output` (a write target) mode 2 adds the relative base to
the literal and every other mode keeps the literal; when not, modes 0 and 2
dereference as for the other operands.  `args[-1]` on an empty slice raises
`IndexError`; `modes[-1]` is the last element of the padded mode list. -/
def follow_pointers (m : Machine) (modes0 : List Nat) (num_args : Nat)
    (has_output : Bool := true) : Except Err (List Int) :=
  let modes := check_modes_length modes0 num_args
  let args := npSlice m.code (m.pointer + 1) (m.pointer + 1 + (num_args : Int))
  match resolve_front m ((args.take (args.length - 1)).zip modes) with
  | .error e => .error e
  | .ok front =>
    match args.getLast? with
    | none => .error .indexOutOfRange
    | some lastArg =>
      let lastMode := modes.getLast?.getD 0
      if has_output then
        if lastMode = 2 then .ok (front ++ [wrap64 (lastArg + m.relative_base)])
        else .ok (front ++ [lastArg])
      else
        if lastMode = 0 then
          match npGet m.code lastArg with
          | .error e => .error e
          | .ok v => .ok (front ++ [v])
        else if lastMode = 2 then
          match npGet m.code (wrap64 (m.relative_base + lastArg)) with
          | .error e => .error e
          | .ok v => .ok (front ++ [v])
        else .ok (front ++ [lastArg])

/-- `IntcodeComputer.add` (opcode 1): resolve three operands (last is the
write target), store the wrapped int64 sum, advance by 4. -/
def Op.add (m : Machine) (modes : List Nat) : Except (Err × Machine) (Machine × Int) :=
  match follow_pointers m modes 3 true with
  | .error e => .error (e, m)
  | .ok args =>
    match args with
    | [arg1, arg2, output_index] =>
      match npSet m.code output_index (wrap64 (arg1 + arg2)) with
      | .error e => .error (e, m)
      | .ok code2 => .ok ({ m with code := code2 }, 4)
    | _ => .error (.valueError, m)

/-- `IntcodeComputer.multiply` (opcode 2). -/
def Op.multiply (m : Machine) (modes : List Nat) : Except (Err × Machine) (Machine × Int) :=
  match follow_pointers m modes 3 true with
  | .error e => .error (e, m)
  | .ok args =>
    match args with
    | [arg1, arg2, output_index] =>
      match npSet m.code output_index (wrap64 (arg1 * arg2)) with
      | .error e => .error (e, m)
      | .ok code2 => .ok ({ m with code := code2 }, 4)
    | _ => .error (.valueError, m)

/-- `IntcodeComputer.input` (opcode 3): resolve the write target, then
`self.code[arg1] = self.input.pop(0)` — the pop happens first (raising
`IndexError` on an empty queue), then the store (a Python `None` raises
`TypeError`, an int outside int64 range `OverflowError`). -/
def Op.input (m : Machine) (modes : List Nat) : Except (Err × Machine) (Machine × Int) :=
  match follow_pointers m modes 1 true with
  | .error e => .error (e, m)
  | .ok args =>
    match args with
    | [] => .error (.indexOutOfRange, m)
    | arg1 :: _ =>
      match m.input with
      | [] => .error (.popFromEmptyList, m)
      | v :: rest =>
        let m2 := { m with input := rest }
        match v with
        | none => .error (.typeError, m2)
        | some x =>
          if x < -two63 ∨ two63 - 1 < x then .error (.overflowError, m2)
          else
            match npSet m2.code arg1 x with
            | .error e => .error (e, m2)
            | .ok code2 => .ok ({ m2 with code := code2 }, 2)

/-- `IntcodeComputer.output` (opcode 4): resolve one read operand, append
it to the output log, and clear `unpaused_flag` when pausing is allowed. -/
def Op.output (m : Machine) (modes : List Nat) : Except (Err × Machine) (Machine × Int) :=
  match follow_pointers m modes 1 false with
  | .error e => .error (e, m)
  | .ok args =>
    match args with
    | [] => .error (.indexOutOfRange, m)
    | arg1 :: _ =>
      let m2 := { m with output := m.output ++ [arg1] }
      let m3 := if m.allow_pausing then { m2 with unpaused_flag := false } else m2
      .ok (m3, 2)

/-- `IntcodeComputer.jump_if_true` (opcode 5): two read operands; nonzero
test sets the pointer to the target and returns 0, else returns 3. -/
def Op.jump_if_true (m : Machine) (modes : List Nat) : Except (Err × Machine) (Machine × Int) :=
  match follow_pointers m modes 2 false with
  | .error e => .error (e, m)
  | .ok args =>
    match args with
    | [arg1, arg2] =>
      if arg1 ≠ 0 then .ok ({ m with pointer := arg2 }, 0)
      else .ok (m, 3)
    | _ => .error (.valueError, m)

/-- `IntcodeComputer.jump_if_false` (opcode 6). -/
def Op.jump_if_false (m : Machine) (modes : List Nat) : Except (Err × Machine) (Machine × Int) :=
  match follow_pointers m modes 2 false with
  | .error e => .error (e, m)
  | .ok args =>
    match args with
    | [arg1, arg2] =>
      if arg1 = 0 then .ok ({ m with pointer := arg2 }, 0)
      else .ok (m, 3)
    | _ => .error (.valueError, m)

/-- `IntcodeComputer.less_than` (opcode 7). -/
def Op.less_than (m : Machine) (modes : List Nat) : Except (Err × Machine) (Machine × Int) :=
  match follow_pointers m modes 3 true with
  | .error e => .error (e, m)
  | .ok args =>
    match args with
    | [arg1, arg2, arg3] =>
      match npSet m.code arg3 (if arg1 < arg2 then 1 else 0) with
      | .error e => .error (e, m)
      | .ok code2 => .ok ({ m with code := code2 }, 4)
    | _ => .error (.valueError, m)

/-- `IntcodeComputer.equals` (opcode 8). -/
def Op.equals (m : Machine) (modes : List Nat) : Except (Err × Machine) (Machine × Int) :=
  match follow_pointers m modes 3 true with
  | .error e => .error (e, m)
  | .ok args =>
    match args with
    | [arg1, arg2, arg3] =>
      match npSet m.code arg3 (if arg1 = arg2 then 1 else 0) with
      | .error e => .error (e, m)
      | .ok code2 => .ok ({ m with code := code2 }, 4)
    | _ => .error (.valueError, m)

/-- `IntcodeComputer.shift` (opcode 9): adjust the relative base (int64
addition). -/
def Op.shift (m : Machine) (modes : List Nat) : Except (Err × Machine) (Machine × Int) :=
  match follow_pointers m modes 1 false with
  | .error e => .error (e, m)
  | .ok args =>
    match args with
    | [arg1] => .ok ({ m with relative_base := wrap64 (m.relative_base + arg1) }, 2)
    | _ => .error (.valueError, m)

/-- `IntcodeComputer.halt` (opcode 99): clear `continue_flag`, return 1. -/
def Op.halt (m : Machine) (_modes : List Nat) : Except (Err × Machine) (Machine × Int) :=
  .ok ({ m with continue_flag := false }, 1)

/-- `IntcodeComputer.operate`: decode the full opcode, look the opcode up
in `opcode_dict` (`KeyError` when absent), and execute it. -/
def operate (m : Machine) (full_opcode : Int) : Except (Err × Machine) (Machine × Int) :=
  match parse_full_opcode full_opcode with
  | .error e => .error (e, m)
  | .ok (modes, opcode) =>
    if opcode = 1 then Op.add m modes
    else if opcode = 2 then Op.multiply m modes
    else if opcode = 3 then Op.input m modes
    else if opcode = 4 then Op.output m modes
    else if opcode = 5 then Op.jump_if_true m modes
    else if opcode = 6 then Op.jump_if_false m modes
    else if opcode = 7 then Op.less_than m modes
    else if opcode = 8 then Op.equals m modes
    else if opcode = 9 then Op.shift m modes
    else if opcode = 99 then Op.halt m modes
    else .error (.keyError, m)

/-- The possible outcomes of the `while` loop in `IntcodeComputer.run`:
normal exit (`done`), a propagated exception leaving the object in its
state at raise time (`failed`), or fuel exhaustion of the model (the Python
loop may not terminate; no claim is settled at `fuelOut`). -/
inductive RunOutcome where
  | done (m : Machine)
  | failed (e : Err) (m : Machine)
  | fuelOut (m : Machine)
deriving DecidableEq, Repr

/-- The `while self.continue_flag and self.unpaused_flag` loop of
`IntcodeComputer.run`: fetch `self.code[self.pointer]`, `operate`, then
`self.pointer += toadd` (int64 arithmetic once the pointer has been set
from an operand). -/
def runLoop : Nat → Machine → RunOutcome
  | 0, m => .fuelOut m
  | fuel + 1, m =>
    if m.continue_flag && m.unpaused_flag then
      match npGet m.code m.pointer with
      | .error e => .failed e m
      | .ok full_opcode =>
        match operate m full_opcode with
        | .error (e, m2) => .failed e m2
        | .ok (m2, toadd) => runLoop fuel { m2 with pointer := wrap64 (m2.pointer + toadd) }
    else .done m

/-- The argument of `run` / `resume`: `run()` (Python `None`), `run(v)`
(a scalar), or `run([v1, ...])` (a list). -/
inductive RunArg where
  | noArg
  | scalar (v : Int)
  | ofList (vs : List Int)
deriving DecidableEq, Repr

/-- `input_value if isinstance(input_value, list) else [input_value]`. -/
def toQueue : RunArg → List (Option Int)
  | .noArg => [Option.none]
  | .scalar v => [some v]
  | .ofList vs => vs.map some

/-- `IntcodeComputer.run`: replace `self.input` with the queue built from
the argument, then run the dispatch loop.  `run` does not touch
`unpaused_flag`. -/
def run (fuel : Nat) (m : Machine) (input_value : RunArg) : RunOutcome :=
  runLoop fuel { m with input := toQueue input_value }

/-- `IntcodeComputer.resume`: set `unpaused_flag` and call `run`. -/
def resume (fuel : Nat) (m : Machine) (input_value : RunArg) : RunOutcome :=
  run fuel { m with unpaused_flag := true } input_value

/-- Constructing `IntcodeComputer(fname=program, code_size=code_size,
allow_pausing=allow_pausing)` with a list program: `__init__` sets the
output log, relative base and flags, allocates `np.zeros(code_size)`, and
`initialize_code` converts the program to an int64 array (`OverflowError`
on a value outside int64 range) and broadcasts it into the prefix
(`ValueError` when the program is longer than the array), leaving the
pointer at 0 and `continue_flag` set. -/
def mkComputer (program : List Int) (code_size : Nat) (allow_pausing : Bool) :
    Except Err Machine :=
  if program.all (fun v => decide (-two63 ≤ v) && decide (v ≤ two63 - 1)) then
    if (code_size : Int) < program.length then .error .valueError
    else .ok
      { code := program ++ List.replicate (code_size - program.length) 0
        pointer := 0
        relative_base := 0
        input := []
        output := []
        continue_flag := true
        unpaused_flag := true
        allow_pausing := allow_pausing }
  else .error .overflowError

/-- The machine carried by a run outcome. -/
def RunOutcome.machine : RunOutcome → Machine
  | .done m => m
  | .failed _ m => m
  | .fuelOut m => m

/-- The error carried by a run outcome, if any. -/
def RunOutcome.err : RunOutcome → Option Err
  | .done _ => Option.none
  | .failed e _ => some e
  | .fuelOut _ => Option.none

/-- Whether the loop exited normally. -/
def RunOutcome.isDone : RunOutcome → Bool
  | .done _ => true
  | _ => false

/-! ## Helper lemmas -/

theorem wrap64_eq_self (x : Int) (h1 : -two63 ≤ x) (h2 : x < two63) :
    wrap64 x = x := by
  unfold two63 at h1 h2
  unfold wrap64 two63 two64
  rw [Int.emod_eq_of_lt (by omega) (by omega)]
  omega

theorem check_modes_length_length (modes : List Nat) (num_args : Nat)
    (h : modes.length ≤ num_args) :
    (check_modes_length modes num_args).length = num_args := by
  unfold check_modes_length
  split
  · simp only [List.length_append, List.length_replicate]
    omega
  · omega

theorem getLast?_of_length {α : Type} (l : List α) (n : Nat) (d : α)
    (hlen : l.length = n) (hn : 1 ≤ n) :
    l.getLast? = some (l.getD (n - 1) d) := by
  subst hlen
  rw [List.getLast?_eq_getElem?, List.getElem?_eq_getElem (by omega),
    List.getD_eq_getElem l d (by omega)]

theorem resolve_front_ok (m : Machine) (l : List (Int × Nat)) (vs : List Int)
    (h : resolve_front m l = .ok vs) :
    vs.length = l.length ∧
    ∀ i, i < l.length →
      resolve_one m (l.getD i (0, 0)).2 (l.getD i (0, 0)).1 = .ok (vs.getD i 0) := by
  induction l generalizing vs with
  | nil =>
    unfold resolve_front at h
    cases h
    simp
  | cons p rest ih =>
    obtain ⟨lit, mode⟩ := p
    unfold resolve_front at h
    cases hres : resolve_one m mode lit with
    | error e => rw [hres] at h; cases h
    | ok v =>
      rw [hres] at h
      cases hrest : resolve_front m rest with
      | error e => rw [hrest] at h; cases h
      | ok vs2 =>
        rw [hrest] at h
        cases h
        obtain ⟨hlen, hpt⟩ := ih vs2 hrest
        refine ⟨by simp [hlen], ?_⟩
        intro i hi
        cases i with
        | zero => simpa using hres
        | succ j =>
          simp only [List.getD_cons_succ]
          exact hpt j (by simpa using hi)

theorem zip_getD {α β : Type} (l1 : List α) (l2 : List β) (i : Nat) (d1 : α) (d2 : β)
    (h1 : i < l1.length) (h2 : i < l2.length) :
    (l1.zip l2).getD i (d1, d2) = (l1.getD i d1, l2.getD i d2) := by
  have hz : i < (l1.zip l2).length := by
    rw [List.length_zip]
    omega
  rw [List.getD_eq_getElem _ _ hz, List.getElem_zip,
    List.getD_eq_getElem _ _ h1, List.getD_eq_getElem _ _ h2]

theorem take_getD {α : Type} (l : List α) (k i : Nat) (d : α)
    (hik : i < k) (hil : i < l.length) :
    (l.take k).getD i d = l.getD i d := by
  have ht : i < (l.take k).length := by
    rw [List.length_take]
    omega
  rw [List.getD_eq_getElem _ _ ht, List.getElem_take, List.getD_eq_getElem _ _ hil]

/-- Decompose a successful `follow_pointers` call into the resolved front
operands and the last operand, given the raw slice `lits` of operand
literals. -/
theorem follow_pointers_decomp (m : Machine) (modes0 : List Nat) (n : Nat) (ho : Bool)
    (lits args : List Int) (hn : 1 ≤ n) (hm : modes0.length ≤ n)
    (hlits : npSlice m.code (m.pointer + 1) (m.pointer + 1 + (n : Int)) = lits)
    (hlen : lits.length = n)
    (hok : follow_pointers m modes0 n ho = .ok args) :
    ∃ front lastVal,
      resolve_front m ((lits.take (n - 1)).zip (check_modes_length modes0 n)) = .ok front ∧
      args = front ++ [lastVal] ∧
      ((ho = true →
        ((check_modes_length modes0 n).getD (n - 1) 0 = 2 →
          lastVal = wrap64 (lits.getD (n - 1) 0 + m.relative_base)) ∧
        ((check_modes_length modes0 n).getD (n - 1) 0 ≠ 2 →
          lastVal = lits.getD (n - 1) 0)) ∧
      (ho = false →
        ((check_modes_length modes0 n).getD (n - 1) 0 = 0 →
          npGet m.code (lits.getD (n - 1) 0) = .ok lastVal) ∧
        ((check_modes_length modes0 n).getD (n - 1) 0 = 2 →
          npGet m.code (wrap64 (m.relative_base + lits.getD (n - 1) 0)) = .ok lastVal) ∧
        ((check_modes_length modes0 n).getD (n - 1) 0 ≠ 0 →
          (check_modes_length modes0 n).getD (n - 1) 0 ≠ 2 →
          lastVal = lits.getD (n - 1) 0))) := by
  have hml := check_modes_length_length modes0 n hm
  have hmlast : (check_modes_length modes0 n).getLast?.getD 0 =
      (check_modes_length modes0 n).getD (n - 1) 0 := by
    rw [getLast?_of_length (check_modes_length modes0 n) n 0 hml hn]
    rfl
  have hlast : lits.getLast? = some (lits.getD (n - 1) 0) :=
    getLast?_of_length lits n 0 hlen hn
  unfold follow_pointers at hok
  rw [hlits] at hok
  simp only [hlen] at hok
  cases hfront : resolve_front m ((lits.take (n - 1)).zip (check_modes_length modes0 n)) with
  | error e => rw [hfront] at hok; cases hok
  | ok front =>
    rw [hfront, hlast, hmlast] at hok
    dsimp only at hok
    refine ⟨front, ?_⟩
    cases ho with
    | true =>
      rw [if_pos rfl] at hok
      by_cases h2 : (check_modes_length modes0 n).getD (n - 1) 0 = 2
      · rw [if_pos h2] at hok
        cases hok
        exact ⟨_, rfl, rfl, fun _ => ⟨fun _ => rfl, fun hc => absurd h2 hc⟩,
          fun hfalse => absurd hfalse (by decide)⟩
      · rw [if_neg h2] at hok
        cases hok
        exact ⟨_, rfl, rfl, fun _ => ⟨fun hc => absurd hc h2, fun _ => rfl⟩,
          fun hfalse => absurd hfalse (by decide)⟩
    | false =>
      rw [if_neg (by simp)] at hok
      by_cases h0 : (check_modes_length modes0 n).getD (n - 1) 0 = 0
      · rw [if_pos h0] at hok
        cases hget : npGet m.code (lits.getD (n - 1) 0) with
        | error e => rw [hget] at hok; cases hok
        | ok v =>
          rw [hget] at hok
          cases hok
          exact ⟨v, rfl, rfl, fun htrue => absurd htrue (by decide),
            fun _ => ⟨fun _ => rfl, fun h2 => absurd h2 (by rw [h0]; decide),
              fun hc _ => absurd h0 hc⟩⟩
      · rw [if_neg h0] at hok
        by_cases h2 : (check_modes_length modes0 n).getD (n - 1) 0 = 2
        · rw [if_pos h2] at hok
          cases hget : npGet m.code (wrap64 (m.relative_base + lits.getD (n - 1) 0)) with
          | error e => rw [hget] at hok; cases hok
          | ok v =>
            rw [hget] at hok
            cases hok
            exact ⟨v, rfl, rfl, fun htrue => absurd htrue (by decide),
              fun _ => ⟨fun hc => absurd hc h0, fun _ => rfl, fun _ hc => absurd h2 hc⟩⟩
        · rw [if_neg h2] at hok
          cases hok
          exact ⟨_, rfl, rfl, fun htrue => absurd htrue (by decide),
            fun _ => ⟨fun hc => absurd hc h0, fun hc => absurd hc h2, fun _ _ => rfl⟩⟩

theorem runLoop_succ (fuel : Nat) (m : Machine) :
    runLoop (fuel + 1) m =
      if m.continue_flag && m.unpaused_flag then
        match npGet m.code m.pointer with
        | .error e => .failed e m
        | .ok full_opcode =>
          match operate m full_opcode with
          | .error (e, m2) => .failed e m2
          | .ok (m2, toadd) => runLoop fuel { m2 with pointer := wrap64 (m2.pointer + toadd) }
      else .done m := rfl

theorem runLoop_stop (fuel : Nat) (m : Machine)
    (h : m.continue_flag = false ∨ m.unpaused_flag = false) :
    runLoop (fuel + 1) m = .done m := by
  rw [runLoop_succ]
  rcases h with h | h <;> simp [h]

theorem runLoop_step (fuel : Nat) (m m2 : Machine) (f toadd : Int)
    (hc : m.continue_flag = true) (hu : m.unpaused_flag = true)
    (hfetch : npGet m.code m.pointer = .ok f)
    (hop : operate m f = .ok (m2, toadd)) :
    runLoop (fuel + 1) m = runLoop fuel { m2 with pointer := wrap64 (m2.pointer + toadd) } := by
  rw [runLoop_succ, hc, hu]
  simp only [Bool.and_self, if_true, hfetch, hop]

theorem runLoop_raise (fuel : Nat) (m m2 : Machine) (f : Int) (e : Err)
    (hc : m.continue_flag = true) (hu : m.unpaused_flag = true)
    (hfetch : npGet m.code m.pointer = .ok f)
    (hop : operate m f = .error (e, m2)) :
    runLoop (fuel + 1) m = .failed e m2 := by
  rw [runLoop_succ, hc, hu]
  simp only [Bool.and_self, if_true, hfetch, hop]

/-! ## Claims -/

/-- C10: once the machine is Halted (`continue_flag = false`), `run` and
`resume` execute no instruction: memory, pointer, relative base, output and
the Halted status are unchanged, and the only spec-level effect is the
replacement of the pending-input queue. -/
theorem C10_halted_run_noop (m : Machine) (arg : RunArg) (fuel : Nat)
    (hhalt : m.continue_flag = false) :
    run (fuel + 1) m arg = .done { m with input := toQueue arg } ∧
    resume (fuel + 1) m arg = .done { m with input := toQueue arg, unpaused_flag := true } ∧
    status { m with input := toQueue arg } = .Halted ∧
    status { m with input := toQueue arg, unpaused_flag := true } = .Halted := by
  refine ⟨?_, ?_, ?_, ?_⟩ <;>
    simp [run, resume, runLoop, status, hhalt]

theorem C10_halted_run_noop_witness :
    (Machine.mk [99, 0] 1 0 [] [] false true false).continue_flag = false ∧
    run 5 (Machine.mk [99, 0] 1 0 [] [] false true false) (.scalar 3) =
      .done (Machine.mk [99, 0] 1 0 [some 3] [] false true false) :=
  ⟨by decide, by
    have h := C10_halted_run_noop (Machine.mk [99, 0] 1 0 [] [] false true false)
      (.scalar 3) 4 (by decide)
    exact h.1⟩

/-- C2 (counterexample): a machine paused after an output.  Calling `run`
on it does not set the status back to Running and executes nothing — it
only replaces the input queue and the machine stays Paused — while
`resume` with the same input continues execution to Halted.  So `run`
after a pause is not equivalent to `resume`. -/
theorem C2_counterexample :
    mkComputer [104, 7, 99] 8 true =
      .ok (Machine.mk [104, 7, 99, 0, 0, 0, 0, 0] 0 0 [] [] true true true) ∧
    run 10 (Machine.mk [104, 7, 99, 0, 0, 0, 0, 0] 0 0 [] [] true true true) (.scalar 1) =
      .done (Machine.mk [104, 7, 99, 0, 0, 0, 0, 0] 2 0 [some 1] [7] true false true) ∧
    status (Machine.mk [104, 7, 99, 0, 0, 0, 0, 0] 2 0 [some 1] [7] true false true) = .Paused ∧
    run 10 (Machine.mk [104, 7, 99, 0, 0, 0, 0, 0] 2 0 [some 1] [7] true false true) (.scalar 5) =
      .done (Machine.mk [104, 7, 99, 0, 0, 0, 0, 0] 2 0 [some 5] [7] true false true) ∧
    status (Machine.mk [104, 7, 99, 0, 0, 0, 0, 0] 2 0 [some 5] [7] true false true) = .Paused ∧
    resume 10 (Machine.mk [104, 7, 99, 0, 0, 0, 0, 0] 2 0 [some 1] [7] true false true)
        (.scalar 5) =
      .done (Machine.mk [104, 7, 99, 0, 0, 0, 0, 0] 3 0 [some 5] [7] false true true) ∧
    status (Machine.mk [104, 7, 99, 0, 0, 0, 0, 0] 3 0 [some 5] [7] false true true) =
      .Halted := by
  decide

/-- C2 (amended): for a Paused machine, `run` replaces the pending-input
queue (a scalar becoming a one-element queue) but leaves the Paused status
in place and executes no instruction; only `resume`, which sets the status
back to Running first, re-enters the dispatch loop. -/
theorem C2_run_on_paused (m : Machine) (arg : RunArg) (fuel : Nat)
    (hc : m.continue_flag = true) (hp : m.unpaused_flag = false) :
    run (fuel + 1) m arg = .done { m with input := toQueue arg } ∧
    resume fuel m arg = runLoop fuel { m with input := toQueue arg, unpaused_flag := true } := by
  constructor
  · simp [run, runLoop, hc, hp]
  · rfl

theorem C2_run_on_paused_witness :
    (Machine.mk [104, 7, 99, 0] 2 0 [some 1] [7] true false true).continue_flag = true ∧
    (Machine.mk [104, 7, 99, 0] 2 0 [some 1] [7] true false true).unpaused_flag = false ∧
    run 4 (Machine.mk [104, 7, 99, 0] 2 0 [some 1] [7] true false true) (.scalar 5) =
      .done (Machine.mk [104, 7, 99, 0] 2 0 [some 5] [7] true false true) :=
  ⟨by decide, by decide, by
    have h := C2_run_on_paused (Machine.mk [104, 7, 99, 0] 2 0 [some 1] [7] true false true)
      (.scalar 5) 3 (by decide) (by decide)
    exact h.1⟩

/-- C4: executing the input opcode (3) with an empty pending-input queue
fails — `self.input.pop(0)` raises on the empty list — before anything is
stored: the failing state is the machine unchanged, so the missing input
is not silently treated as zero.  The interpreter has no pause-for-input
at all, so this holds whether or not `allow_pausing` is set. -/
theorem C4_input_exhausted (m : Machine) (fuel : Nat) (f : Int) (modes : List Nat)
    (a : Int) (rest : List Int)
    (hc : m.continue_flag = true) (hu : m.unpaused_flag = true)
    (hfetch : npGet m.code m.pointer = .ok f)
    (hparse : parse_full_opcode f = .ok (modes, 3))
    (hargs : follow_pointers m modes 1 true = .ok (a :: rest))
    (hq : m.input = []) :
    runLoop (fuel + 1) m = .failed .popFromEmptyList m := by
  have hop : operate m f = .error (.popFromEmptyList, m) := by
    unfold operate
    rw [hparse]
    norm_num [Op.input, hargs, hq]
  unfold runLoop
  rw [hc, hu, hfetch]
  simp only [Bool.and_self, if_true, hop]

theorem C4_input_exhausted_witness :
    runLoop 5 (Machine.mk [3, 0, 99] 0 0 [] [] true true false) =
      .failed .popFromEmptyList (Machine.mk [3, 0, 99] 0 0 [] [] true true false) := by
  have h := C4_input_exhausted (Machine.mk [3, 0, 99] 0 0 [] [] true true false) 4
    3 [] 0 [] (by decide) (by decide) (by decide) (by decide) (by decide) (by decide)
  exact h

/-- C5: with pause-on-output enabled, every execution of the output opcode
(4) causes exactly one Pause: whatever the machine and program, the
dispatch loop appends exactly one value — the resolved operand — to the
cumulative output log, clears the run flag, advances the pointer by 2, and
immediately returns control to the caller with status Paused.  Hence each
`run`/`resume` cycle produces exactly one value, none duplicated or
dropped, and a program emitting three outputs via three separate output
opcodes takes exactly three cycles to emit them. -/
theorem C5_output_pauses (m : Machine) (fuel : Nat) (f v : Int) (modes : List Nat)
    (rest : List Int)
    (hap : m.allow_pausing = true)
    (hc : m.continue_flag = true) (hu : m.unpaused_flag = true)
    (hfetch : npGet m.code m.pointer = .ok f)
    (hparse : parse_full_opcode f = .ok (modes, 4))
    (hargs : follow_pointers m modes 1 false = .ok (v :: rest)) :
    runLoop (fuel + 2) m =
      .done { m with output := m.output ++ [v], unpaused_flag := false,
                     pointer := wrap64 (m.pointer + 2) } ∧
    status { m with output := m.output ++ [v], unpaused_flag := false,
                    pointer := wrap64 (m.pointer + 2) } = .Paused := by
  have hop : operate m f =
      .ok ({ m with output := m.output ++ [v], unpaused_flag := false }, 2) := by
    unfold operate
    rw [hparse]
    norm_num [Op.output, hargs, hap]
  constructor
  · have h2 : fuel + 2 = fuel + 1 + 1 := rfl
    rw [h2, runLoop_step (fuel + 1) m _ f 2 hc hu hfetch hop]
    exact runLoop_stop fuel _ (Or.inr rfl)
  · simp [status, hc]

theorem C5_output_pauses_witness :
    runLoop 10
        (Machine.mk [104, 1, 104, 2, 104, 3, 99, 0, 0, 0] 0 0 [some 0] [] true true true) =
      .done { Machine.mk [104, 1, 104, 2, 104, 3, 99, 0, 0, 0] 0 0 [some 0] [] true true true
        with
        output := (Machine.mk [104, 1, 104, 2, 104, 3, 99, 0, 0, 0] 0 0 [some 0] []
          true true true).output ++ [1],
        unpaused_flag := false,
        pointer := wrap64 ((Machine.mk [104, 1, 104, 2, 104, 3, 99, 0, 0, 0] 0 0 [some 0] []
          true true true).pointer + 2) } ∧
    status { Machine.mk [104, 1, 104, 2, 104, 3, 99, 0, 0, 0] 0 0 [some 0] [] true true true
      with
      output := (Machine.mk [104, 1, 104, 2, 104, 3, 99, 0, 0, 0] 0 0 [some 0] []
        true true true).output ++ [1],
      unpaused_flag := false,
      pointer := wrap64 ((Machine.mk [104, 1, 104, 2, 104, 3, 99, 0, 0, 0] 0 0 [some 0] []
        true true true).pointer + 2) } = .Paused :=
  C5_output_pauses
    (Machine.mk [104, 1, 104, 2, 104, 3, 99, 0, 0, 0] 0 0 [some 0] [] true true true)
    8 104 1 [1] [] (by decide) (by decide) (by decide) (by decide) (by decide) (by decide)

/-- The concrete three-output instance: with pause-on-output enabled, the
program `[104,1,104,2,104,3,99]` (three outputs via three separate output
opcodes) pauses after every single output: the first `run` and the two
following `resume` calls each append exactly one value to the cumulative
output log — `[1]`, `[1,2]`, `[1,2,3]` — each leaving the machine Paused,
and a final `resume` halts without duplicating or dropping any value. -/
theorem three_outputs_three_cycles_instance :
    mkComputer [104, 1, 104, 2, 104, 3, 99] 10 true =
      .ok (Machine.mk [104, 1, 104, 2, 104, 3, 99, 0, 0, 0] 0 0 [] [] true true true) ∧
    run 10 (Machine.mk [104, 1, 104, 2, 104, 3, 99, 0, 0, 0] 0 0 [] [] true true true)
        (.scalar 0) =
      .done (Machine.mk [104, 1, 104, 2, 104, 3, 99, 0, 0, 0] 2 0 [some 0] [1]
        true false true) ∧
    status (Machine.mk [104, 1, 104, 2, 104, 3, 99, 0, 0, 0] 2 0 [some 0] [1] true false true) =
      .Paused ∧
    resume 10 (Machine.mk [104, 1, 104, 2, 104, 3, 99, 0, 0, 0] 2 0 [some 0] [1]
        true false true) (.scalar 0) =
      .done (Machine.mk [104, 1, 104, 2, 104, 3, 99, 0, 0, 0] 4 0 [some 0] [1, 2]
        true false true) ∧
    status (Machine.mk [104, 1, 104, 2, 104, 3, 99, 0, 0, 0] 4 0 [some 0] [1, 2]
        true false true) = .Paused ∧
    resume 10 (Machine.mk [104, 1, 104, 2, 104, 3, 99, 0, 0, 0] 4 0 [some 0] [1, 2]
        true false true) (.scalar 0) =
      .done (Machine.mk [104, 1, 104, 2, 104, 3, 99, 0, 0, 0] 6 0 [some 0] [1, 2, 3]
        true false true) ∧
    status (Machine.mk [104, 1, 104, 2, 104, 3, 99, 0, 0, 0] 6 0 [some 0] [1, 2, 3]
        true false true) = .Paused ∧
    resume 10 (Machine.mk [104, 1, 104, 2, 104, 3, 99, 0, 0, 0] 6 0 [some 0] [1, 2, 3]
        true false true) (.scalar 0) =
      .done (Machine.mk [104, 1, 104, 2, 104, 3, 99, 0, 0, 0] 7 0 [some 0] [1, 2, 3]
        false true true) ∧
    status (Machine.mk [104, 1, 104, 2, 104, 3, 99, 0, 0, 0] 7 0 [some 0] [1, 2, 3]
        false true true) = .Halted := by
  decide

/-- C9: a freshly loaded program consisting solely of opcode 99 at address
0 halts at once: for any capacity, any pausing policy and any input
argument, `run` ends with status Halted and an empty output log. -/
theorem C9_halt_program (cap : Nat) (ap : Bool) (arg : RunArg) (fuel : Nat) (m0 : Machine)
    (hload : mkComputer [99] cap ap = .ok m0) :
    run (fuel + 2) m0 arg =
      .done { m0 with input := toQueue arg, pointer := 1, continue_flag := false } ∧
    status { m0 with input := toQueue arg, pointer := 1, continue_flag := false } = .Halted ∧
    ({ m0 with input := toQueue arg, pointer := 1, continue_flag := false } : Machine).output
      = [] := by
  unfold mkComputer at hload
  rw [if_pos (by decide)] at hload
  split at hload
  · cases hload
  next hge =>
    injection hload with hm0
    subst hm0
    simp only [List.length_singleton] at hge
    have hcap : 1 ≤ cap := by omega
    refine ⟨?_, rfl, rfl⟩
    unfold run
    simp only [List.singleton_append, List.length_singleton]
    have h2 : fuel + 2 = fuel + 1 + 1 := rfl
    rw [h2]
    have hfetch : npGet (Machine.mk ((99 : Int) :: List.replicate (cap - 1) 0) 0 0
        (toQueue arg) [] true true ap).code (0 : Int) = .ok 99 := by
      unfold npGet
      rw [if_pos le_rfl, if_pos (by simp)]
      rfl
    have hop : operate (Machine.mk ((99 : Int) :: List.replicate (cap - 1) 0) 0 0
        (toQueue arg) [] true true ap) 99 =
        .ok (Machine.mk ((99 : Int) :: List.replicate (cap - 1) 0) 0 0
          (toQueue arg) [] false true ap, 1) := rfl
    rw [runLoop_step (fuel + 1) _ _ 99 1 rfl rfl hfetch hop]
    rw [show wrap64 (0 + 1) = 1 by decide]
    exact runLoop_stop fuel _ (Or.inl rfl)

theorem C9_halt_program_witness :
    mkComputer [99] 4 false = .ok (Machine.mk [99, 0, 0, 0] 0 0 [] [] true true false) ∧
    run 7 (Machine.mk [99, 0, 0, 0] 0 0 [] [] true true false) (.scalar 42) =
      .done (Machine.mk [99, 0, 0, 0] 1 0 [some 42] [] false true false) ∧
    status (Machine.mk [99, 0, 0, 0] 1 0 [some 42] [] false true false) = .Halted :=
  ⟨by decide, by
    have h := C9_halt_program 4 false (.scalar 42) 5
      (Machine.mk [99, 0, 0, 0] 0 0 [] [] true true false) (by decide)
    exact h.1, by decide⟩

/-- C6: for a fetched jump instruction (opcode 5 = jump-if-true, 6 =
jump-if-false) with resolved operands `a1, a2`: when the jump is taken
(opcode 5 with `a1 ≠ 0`, opcode 6 with `a1 = 0`) the instruction pointer
becomes exactly the resolved target `a2` — the dispatch loop adds the
returned 0, so there is no additional advance — and otherwise the pointer
advances by exactly 3. -/
theorem C6_jump_semantics (m : Machine) (fuel : Nat) (f opc a1 a2 : Int) (modes : List Nat)
    (hc : m.continue_flag = true) (hu : m.unpaused_flag = true)
    (hfetch : npGet m.code m.pointer = .ok f)
    (hparse : parse_full_opcode f = .ok (modes, opc))
    (hopc : opc = 5 ∨ opc = 6)
    (hargs : follow_pointers m modes 2 false = .ok [a1, a2])
    (hp0 : 0 ≤ m.pointer) (hp3 : m.pointer + 3 < two63)
    (ha2l : -two63 ≤ a2) (ha2r : a2 < two63) :
    (((opc = 5 ∧ a1 ≠ 0) ∨ (opc = 6 ∧ a1 = 0)) →
      runLoop (fuel + 1) m = runLoop fuel { m with pointer := a2 }) ∧
    (((opc = 5 ∧ a1 = 0) ∨ (opc = 6 ∧ a1 ≠ 0)) →
      runLoop (fuel + 1) m = runLoop fuel { m with pointer := m.pointer + 3 }) := by
  have hw2 : wrap64 (a2 + 0) = a2 := by
    rw [add_zero]
    exact wrap64_eq_self a2 ha2l ha2r
  have hw3 : wrap64 (m.pointer + 3) = m.pointer + 3 :=
    wrap64_eq_self _ (by unfold two63 at *; omega) hp3
  constructor
  · rintro (⟨h5, hne⟩ | ⟨h6, heq⟩)
    · subst h5
      have hop : operate m f = .ok ({ m with pointer := a2 }, 0) := by
        unfold operate
        rw [hparse]
        norm_num [Op.jump_if_true, hargs, hne]
      rw [runLoop_step fuel m _ f 0 hc hu hfetch hop]
      simp only [hw2]
    · subst h6
      have hop : operate m f = .ok ({ m with pointer := a2 }, 0) := by
        unfold operate
        rw [hparse]
        norm_num [Op.jump_if_false, hargs, heq]
      rw [runLoop_step fuel m _ f 0 hc hu hfetch hop]
      simp only [hw2]
  · rintro (⟨h5, heq⟩ | ⟨h6, hne⟩)
    · subst h5
      have hop : operate m f = .ok (m, 3) := by
        unfold operate
        rw [hparse]
        norm_num [Op.jump_if_true, hargs, heq]
      rw [runLoop_step fuel m _ f 3 hc hu hfetch hop]
      simp only [hw3]
    · subst h6
      have hop : operate m f = .ok (m, 3) := by
        unfold operate
        rw [hparse]
        norm_num [Op.jump_if_false, hargs, hne]
      rw [runLoop_step fuel m _ f 3 hc hu hfetch hop]
      simp only [hw3]

theorem C6_jump_semantics_witness :
    ((((5 : Int) = 5 ∧ (1 : Int) ≠ 0) ∨ ((5 : Int) = 6 ∧ (1 : Int) = 0)) →
      runLoop 3 (Machine.mk [1105, 1, 4, 99, 104, 7, 99] 0 0 [] [] true true false) =
        runLoop 2 (Machine.mk [1105, 1, 4, 99, 104, 7, 99] 4 0 [] [] true true false)) ∧
    runLoop 3 (Machine.mk [1105, 1, 4, 99, 104, 7, 99] 0 0 [] [] true true false) =
      runLoop 2 (Machine.mk [1105, 1, 4, 99, 104, 7, 99] 4 0 [] [] true true false) := by
  have h := C6_jump_semantics (Machine.mk [1105, 1, 4, 99, 104, 7, 99] 0 0 [] [] true true false)
    2 1105 5 1 4 [1, 1] (by decide) (by decide) (by decide) (by decide) (Or.inl rfl)
    (by decide) (by decide) (by decide) (by decide) (by decide)
  exact ⟨h.1, h.1 (Or.inl ⟨rfl, by decide⟩)⟩

/-- C7 (amended): for a fetched add instruction with resolved operands
`a1, a2` and write target `t`, with `cap` the memory capacity: a target
with `t ≥ cap` or `t < -cap` fails (numpy `IndexError`) and the failing
machine is `m` itself, so no memory cell was mutated; a target in
`[0, cap)` stores at address `t`; but a negative target in `[-cap, 0)`
does not fail — numpy indexing wraps it around and the store lands at
address `cap + t`. -/
theorem C7_store_address_range (m : Machine) (fuel : Nat) (f a1 a2 t : Int) (modes : List Nat)
    (hc : m.continue_flag = true) (hu : m.unpaused_flag = true)
    (hfetch : npGet m.code m.pointer = .ok f)
    (hparse : parse_full_opcode f = .ok (modes, 1))
    (hargs : follow_pointers m modes 3 true = .ok [a1, a2, t]) :
    ((m.code.length : Int) ≤ t ∨ t < -(m.code.length : Int) →
      runLoop (fuel + 1) m = .failed .indexOutOfRange m) ∧
    (0 ≤ t → t < (m.code.length : Int) →
      runLoop (fuel + 1) m = runLoop fuel
        { m with code := m.code.set t.toNat (wrap64 (a1 + a2)),
                 pointer := wrap64 (m.pointer + 4) }) ∧
    (-(m.code.length : Int) ≤ t → t < 0 →
      runLoop (fuel + 1) m = runLoop fuel
        { m with code := m.code.set ((m.code.length : Int) + t).toNat (wrap64 (a1 + a2)),
                 pointer := wrap64 (m.pointer + 4) }) := by
  refine ⟨?_, ?_, ?_⟩
  · intro hout
    have hset : npSet m.code t (wrap64 (a1 + a2)) = .error .indexOutOfRange := by
      unfold npSet
      rcases hout with hout | hout
      · rw [if_pos (by omega), if_neg (by omega)]
      · rw [if_neg (by omega), if_neg (by omega)]
    have hop : operate m f = .error (.indexOutOfRange, m) := by
      unfold operate
      rw [hparse]
      norm_num [Op.add, hargs, hset]
    exact runLoop_raise fuel m m f .indexOutOfRange hc hu hfetch hop
  · intro h0 hlt
    have hset : npSet m.code t (wrap64 (a1 + a2)) = .ok (m.code.set t.toNat (wrap64 (a1 + a2))) := by
      unfold npSet
      rw [if_pos h0, if_pos hlt]
    have hop : operate m f =
        .ok ({ m with code := m.code.set t.toNat (wrap64 (a1 + a2)) }, 4) := by
      unfold operate
      rw [hparse]
      norm_num [Op.add, hargs, hset]
    rw [runLoop_step fuel m _ f 4 hc hu hfetch hop]
  · intro hge hneg
    have hset : npSet m.code t (wrap64 (a1 + a2)) =
        .ok (m.code.set ((m.code.length : Int) + t).toNat (wrap64 (a1 + a2))) := by
      unfold npSet
      rw [if_neg (by omega), if_pos hge]
    have hop : operate m f =
        .ok ({ m with code := m.code.set ((m.code.length : Int) + t).toNat (wrap64 (a1 + a2)) }, 4) := by
      unfold operate
      rw [hparse]
      norm_num [Op.add, hargs, hset]
    rw [runLoop_step fuel m _ f 4 hc hu hfetch hop]

theorem C7_store_address_range_witness :
    follow_pointers (Machine.mk [1101, 2, 3, -1, 99, 0, 0, 0] 0 0 [] [] true true false)
      [1, 1] 3 true = .ok [2, 3, -1] ∧
    runLoop 3 (Machine.mk [1101, 2, 3, -1, 99, 0, 0, 0] 0 0 [] [] true true false) =
      runLoop 2 (Machine.mk [1101, 2, 3, -1, 99, 0, 0, 5] 4 0 [] [] true true false) := by
  have h := C7_store_address_range
    (Machine.mk [1101, 2, 3, -1, 99, 0, 0, 0] 0 0 [] [] true true false)
    2 1101 2 3 (-1) [1, 1] (by decide) (by decide) (by decide) (by decide) (by decide)
  refine ⟨by decide, ?_⟩
  have h2 := h.2.2 (by decide) (by decide)
  rw [h2]
  decide

/-- C7 (counterexample to the claim as stated): the program
`[1101, 2, 3, -1, 99]` computes the write address `-1`, which lies outside
`[0, capacity)`, yet execution does not fail: numpy's negative indexing
wraps the store around to address `capacity - 1`, the run halts normally,
and memory IS mutated (`code[7] = 5` at capacity 8). -/
theorem C7_counterexample :
    mkComputer [1101, 2, 3, -1, 99] 8 false =
      .ok (Machine.mk [1101, 2, 3, -1, 99, 0, 0, 0] 0 0 [] [] true true false) ∧
    run 10 (Machine.mk [1101, 2, 3, -1, 99, 0, 0, 0] 0 0 [] [] true true false) (.scalar 0) =
      .done (Machine.mk [1101, 2, 3, -1, 99, 0, 0, 5] 5 0 [some 0] [] false true false) ∧
    (Machine.mk [1101, 2, 3, -1, 99, 0, 0, 5] 5 0 [some 0] [] false true false).code.getD 7 0
      = 5 ∧
    status (Machine.mk [1101, 2, 3, -1, 99, 0, 0, 5] 5 0 [some 0] [] false true false) =
      .Halted := by
  decide

/-- C3 (counterexample): the program `[11101, 2, 3, 5, 99, 0]` decodes its
write target with immediate mode (1); execution does not fail with any
error — the literal `5` is silently used as the store address, the machine
halts normally and `code[5] = 2 + 3 = 5`. -/
theorem C3_counterexample :
    mkComputer [11101, 2, 3, 5, 99, 0] 8 false =
      .ok (Machine.mk [11101, 2, 3, 5, 99, 0, 0, 0] 0 0 [] [] true true false) ∧
    run 10 (Machine.mk [11101, 2, 3, 5, 99, 0, 0, 0] 0 0 [] [] true true false) (.scalar 0) =
      .done (Machine.mk [11101, 2, 3, 5, 99, 5, 0, 0] 5 0 [some 0] [] false true false) ∧
    (Machine.mk [11101, 2, 3, 5, 99, 5, 0, 0] 5 0 [some 0] [] false true false).code.getD 5 0
      = 5 ∧
    status (Machine.mk [11101, 2, 3, 5, 99, 5, 0, 0] 5 0 [some 0] [] false true false) =
      .Halted := by
  decide

/-- C3 (amended): decoding the final write-target operand with immediate
mode (1) does not fail: `follow_pointers` falls through both mode branches
and the literal operand itself is silently used as the target address,
exactly as in position mode. -/
theorem C3_immediate_write_target (m : Machine) (modes0 : List Nat) (n : Nat)
    (front lits : List Int)
    (hn : 1 ≤ n) (hm : modes0.length ≤ n)
    (hlits : npSlice m.code (m.pointer + 1) (m.pointer + 1 + (n : Int)) = lits)
    (hlen : lits.length = n)
    (hfront : resolve_front m ((lits.take (n - 1)).zip (check_modes_length modes0 n)) =
      .ok front)
    (hmode : (check_modes_length modes0 n).getD (n - 1) 0 = 1) :
    follow_pointers m modes0 n true = .ok (front ++ [lits.getD (n - 1) 0]) := by
  have hml := check_modes_length_length modes0 n hm
  have hmlast : (check_modes_length modes0 n).getLast?.getD 0 =
      (check_modes_length modes0 n).getD (n - 1) 0 := by
    rw [getLast?_of_length (check_modes_length modes0 n) n 0 hml hn]
    rfl
  have hlast : lits.getLast? = some (lits.getD (n - 1) 0) :=
    getLast?_of_length lits n 0 hlen hn
  unfold follow_pointers
  rw [hlits]
  simp only [hlen]
  rw [hfront, hlast, hmlast]
  dsimp only
  rw [if_true, if_neg (by rw [hmode]; decide)]

theorem C3_immediate_write_target_witness :
    resolve_front (Machine.mk [11101, 2, 3, 5, 99, 0] 0 0 [] [] true true false)
      (([2, 3, 5].take 2).zip (check_modes_length [1, 1, 1] 3)) = .ok [2, 3] ∧
    follow_pointers (Machine.mk [11101, 2, 3, 5, 99, 0] 0 0 [] [] true true false)
      [1, 1, 1] 3 true = .ok [2, 3, 5] := by
  refine ⟨by decide, ?_⟩
  have h := C3_immediate_write_target
    (Machine.mk [11101, 2, 3, 5, 99, 0] 0 0 [] [] true true false)
    [1, 1, 1] 3 [2, 3] [2, 3, 5] (by decide) (by decide) (by decide) (by decide)
    (by decide) (by decide)
  exact h

theorem getD_append_length {α : Type} (l : List α) (x d : α) :
    (l ++ [x]).getD l.length d = x := by
  rw [List.getD_eq_getElem _ _ (by simp), List.getElem_append_right (le_refl l.length)]
  simp

/-- C1: operand resolution in `follow_pointers` obeys the mode rules.
Given the raw operand literals `lits` (the slice after the pointer) and a
successful resolution `args`, every operand before the last follows the
read rules — mode 0 dereferences the literal, mode 1 keeps the literal,
mode 2 dereferences `relative_base + literal` — and the final operand,
when it is a write target (`ho = true`), is never dereferenced a second
time: mode 0 keeps the literal as the target address and mode 2 yields
`relative_base + literal` (as an int64 sum; the unwrapped form holds
whenever the sum is in int64 range).  When the final operand is not a
write target (`ho = false`) it follows the read rules. -/
theorem C1_operand_resolution (m : Machine) (modes0 : List Nat) (n : Nat) (ho : Bool)
    (lits args : List Int)
    (hn : 1 ≤ n) (hm : modes0.length ≤ n)
    (hlits : npSlice m.code (m.pointer + 1) (m.pointer + 1 + (n : Int)) = lits)
    (hlen : lits.length = n)
    (hok : follow_pointers m modes0 n ho = .ok args) :
    args.length = n ∧
    (∀ i, i < n - 1 →
      ((check_modes_length modes0 n).getD i 0 = 0 →
        npGet m.code (lits.getD i 0) = .ok (args.getD i 0)) ∧
      ((check_modes_length modes0 n).getD i 0 = 1 →
        args.getD i 0 = lits.getD i 0) ∧
      ((check_modes_length modes0 n).getD i 0 = 2 →
        npGet m.code (wrap64 (m.relative_base + lits.getD i 0)) = .ok (args.getD i 0) ∧
        (-two63 ≤ m.relative_base + lits.getD i 0 →
          m.relative_base + lits.getD i 0 < two63 →
          npGet m.code (m.relative_base + lits.getD i 0) = .ok (args.getD i 0)))) ∧
    (ho = true →
      ((check_modes_length modes0 n).getD (n - 1) 0 = 0 →
        args.getD (n - 1) 0 = lits.getD (n - 1) 0) ∧
      ((check_modes_length modes0 n).getD (n - 1) 0 = 2 →
        args.getD (n - 1) 0 = wrap64 (lits.getD (n - 1) 0 + m.relative_base) ∧
        (-two63 ≤ lits.getD (n - 1) 0 + m.relative_base →
          lits.getD (n - 1) 0 + m.relative_base < two63 →
          args.getD (n - 1) 0 = lits.getD (n - 1) 0 + m.relative_base))) ∧
    (ho = false →
      ((check_modes_length modes0 n).getD (n - 1) 0 = 0 →
        npGet m.code (lits.getD (n - 1) 0) = .ok (args.getD (n - 1) 0)) ∧
      ((check_modes_length modes0 n).getD (n - 1) 0 = 1 →
        args.getD (n - 1) 0 = lits.getD (n - 1) 0) ∧
      ((check_modes_length modes0 n).getD (n - 1) 0 = 2 →
        npGet m.code (wrap64 (m.relative_base + lits.getD (n - 1) 0)) =
          .ok (args.getD (n - 1) 0))) := by
  obtain ⟨front, lastVal, hfront, heq, htrue, hfalse⟩ :=
    follow_pointers_decomp m modes0 n ho lits args hn hm hlits hlen hok
  subst heq
  have hml := check_modes_length_length modes0 n hm
  obtain ⟨hflen, hfpt⟩ := resolve_front_ok m _ front hfront
  have hzlen : ((lits.take (n - 1)).zip (check_modes_length modes0 n)).length = n - 1 := by
    rw [List.length_zip, List.length_take, hml, hlen]
    omega
  have hfl : front.length = n - 1 := by rw [hflen, hzlen]
  have hlast_idx : (front ++ [lastVal]).getD (n - 1) 0 = lastVal := by
    rw [← hfl]
    exact getD_append_length front lastVal 0
  have hfrontfact : ∀ i, i < n - 1 →
      resolve_one m ((check_modes_length modes0 n).getD i 0) (lits.getD i 0) =
        .ok ((front ++ [lastVal]).getD i 0) := by
    intro i hi
    have h1 := hfpt i (by rw [hzlen]; exact hi)
    rw [zip_getD _ _ i 0 0 (by rw [List.length_take, hlen]; omega) (by rw [hml]; omega)] at h1
    dsimp only at h1
    rw [take_getD lits (n - 1) i 0 hi (by omega)] at h1
    rw [List.getD_append _ _ _ _ (by rw [hfl]; exact hi)]
    exact h1
  refine ⟨?_, ?_, ?_, ?_⟩
  · simp only [List.length_append, List.length_cons, List.length_nil, hfl]
    omega
  · intro i hi
    refine ⟨fun h0 => ?_, fun h1m => ?_, fun h2m => ?_⟩
    · have h1 := hfrontfact i hi
      unfold resolve_one at h1
      rw [if_pos h0] at h1
      exact h1
    · have h1 := hfrontfact i hi
      unfold resolve_one at h1
      rw [if_neg (by rw [h1m]; decide), if_neg (by rw [h1m]; decide)] at h1
      injection h1 with h1v
      exact h1v.symm
    · have h1 := hfrontfact i hi
      unfold resolve_one at h1
      rw [if_neg (by rw [h2m]; decide), if_pos h2m] at h1
      refine ⟨h1, fun hl hr => ?_⟩
      rw [← wrap64_eq_self (m.relative_base + lits.getD i 0) hl hr]
      exact h1
  · intro hho
    obtain ⟨ht2, htn2⟩ := htrue hho
    refine ⟨fun h0 => ?_, fun h2 => ?_⟩
    · rw [hlast_idx, htn2 (by rw [h0]; decide)]
    · refine ⟨by rw [hlast_idx, ht2 h2], fun hl hr => ?_⟩
      rw [hlast_idx, ht2 h2, wrap64_eq_self _ hl hr]
  · intro hho
    obtain ⟨hf0, hf2, hfo⟩ := hfalse hho
    refine ⟨fun h0 => ?_, fun h1m => ?_, fun h2m => ?_⟩
    · rw [hlast_idx]
      exact hf0 h0
    · rw [hlast_idx]
      exact hfo (by rw [h1m]; decide) (by rw [h1m]; decide)
    · rw [hlast_idx]
      exact hf2 h2m

theorem C1_operand_resolution_witness :
    npSlice (Machine.mk [203, 4, 99, 0, 0] 0 2 [] [] true true false).code
      ((Machine.mk [203, 4, 99, 0, 0] 0 2 [] [] true true false).pointer + 1)
      ((Machine.mk [203, 4, 99, 0, 0] 0 2 [] [] true true false).pointer + 1 + (1 : Int))
      = [4] ∧
    follow_pointers (Machine.mk [203, 4, 99, 0, 0] 0 2 [] [] true true false) [2] 1 true =
      .ok [6] ∧
    (([6] : List Int).length = 1 ∧
    (∀ i, i < 1 - 1 →
      ((check_modes_length [2] 1).getD i 0 = 0 →
        npGet (Machine.mk [203, 4, 99, 0, 0] 0 2 [] [] true true false).code
          (([4] : List Int).getD i 0) = .ok (([6] : List Int).getD i 0)) ∧
      ((check_modes_length [2] 1).getD i 0 = 1 →
        ([6] : List Int).getD i 0 = ([4] : List Int).getD i 0) ∧
      ((check_modes_length [2] 1).getD i 0 = 2 →
        npGet (Machine.mk [203, 4, 99, 0, 0] 0 2 [] [] true true false).code
          (wrap64 ((Machine.mk [203, 4, 99, 0, 0] 0 2 [] [] true true false).relative_base +
            ([4] : List Int).getD i 0)) = .ok (([6] : List Int).getD i 0) ∧
        (-two63 ≤ (Machine.mk [203, 4, 99, 0, 0] 0 2 [] [] true true false).relative_base +
            ([4] : List Int).getD i 0 →
          (Machine.mk [203, 4, 99, 0, 0] 0 2 [] [] true true false).relative_base +
            ([4] : List Int).getD i 0 < two63 →
          npGet (Machine.mk [203, 4, 99, 0, 0] 0 2 [] [] true true false).code
            ((Machine.mk [203, 4, 99, 0, 0] 0 2 [] [] true true false).relative_base +
              ([4] : List Int).getD i 0) = .ok (([6] : List Int).getD i 0)))) ∧
    (true = true →
      ((check_modes_length [2] 1).getD (1 - 1) 0 = 0 →
        ([6] : List Int).getD (1 - 1) 0 = ([4] : List Int).getD (1 - 1) 0) ∧
      ((check_modes_length [2] 1).getD (1 - 1) 0 = 2 →
        ([6] : List Int).getD (1 - 1) 0 = wrap64 (([4] : List Int).getD (1 - 1) 0 +
          (Machine.mk [203, 4, 99, 0, 0] 0 2 [] [] true true false).relative_base) ∧
        (-two63 ≤ ([4] : List Int).getD (1 - 1) 0 +
            (Machine.mk [203, 4, 99, 0, 0] 0 2 [] [] true true false).relative_base →
          ([4] : List Int).getD (1 - 1) 0 +
            (Machine.mk [203, 4, 99, 0, 0] 0 2 [] [] true true false).relative_base < two63 →
          ([6] : List Int).getD (1 - 1) 0 = ([4] : List Int).getD (1 - 1) 0 +
            (Machine.mk [203, 4, 99, 0, 0] 0 2 [] [] true true false).relative_base))) ∧
    (true = false →
      ((check_modes_length [2] 1).getD (1 - 1) 0 = 0 →
        npGet (Machine.mk [203, 4, 99, 0, 0] 0 2 [] [] true true false).code
          (([4] : List Int).getD (1 - 1) 0) = .ok (([6] : List Int).getD (1 - 1) 0)) ∧
      ((check_modes_length [2] 1).getD (1 - 1) 0 = 1 →
        ([6] : List Int).getD (1 - 1) 0 = ([4] : List Int).getD (1 - 1) 0) ∧
      ((check_modes_length [2] 1).getD (1 - 1) 0 = 2 →
        npGet (Machine.mk [203, 4, 99, 0, 0] 0 2 [] [] true true false).code
          (wrap64 ((Machine.mk [203, 4, 99, 0, 0] 0 2 [] [] true true false).relative_base +
            ([4] : List Int).getD (1 - 1) 0)) =
          .ok (([6] : List Int).getD (1 - 1) 0)))) :=
  ⟨by decide, by decide,
    C1_operand_resolution (Machine.mk [203, 4, 99, 0, 0] 0 2 [] [] true true false)
      [2] 1 true [4] [6] (by decide) (by decide) (by decide) (by decide) (by decide)⟩

end Intcode
